import Mathlib

/-!
Verification development for the Silence repository: the Ephemeral Key
Cascade crypto engine (src/src/crypto.rs), the peer networking layer
(src/src/network.rs) and the relay fan-out server
(src/relay-server/src/main.rs), shallowly embedded in Lean.

Byte sequences are lists of natural numbers; every byte stored by the
system is < 256, but the definitions are total over Nat.
-/

set_option maxRecDepth 8192

namespace Silence

abbrev Bytes := List Nat

/-- Big-endian 4-byte encoding of a u32 (tokio write_u32 / read_u32). -/
def u32be (n : Nat) : Bytes :=
  [n / 2 ^ 24 % 256, n / 2 ^ 16 % 256, n / 2 ^ 8 % 256, n % 256]

/-- Little-endian 4-byte encoding of a u32. -/
def u32le (n : Nat) : Bytes :=
  [n % 256, n / 2 ^ 8 % 256, n / 2 ^ 16 % 256, n / 2 ^ 24 % 256]

/-- Little-endian 8-byte encoding of a u64 (bincode fixint). -/
def u64le (n : Nat) : Bytes :=
  [n % 256, n / 2 ^ 8 % 256, n / 2 ^ 16 % 256, n / 2 ^ 24 % 256,
   n / 2 ^ 32 % 256, n / 2 ^ 40 % 256, n / 2 ^ 48 % 256, n / 2 ^ 56 % 256]

/-- Interpret a byte list as a little-endian natural number. -/
def bytesToNatLE (b : Bytes) : Nat :=
  b.foldr (fun x acc => x + 256 * acc) 0

/-- Little-endian encoding of n into exactly len bytes. -/
def natToBytesLE (len n : Nat) : Bytes :=
  (List.range len).map (fun i => n / 256 ^ i % 256)

/-- ASCII bytes of a string literal (all labels in this system are ASCII). -/
def strBytes (s : String) : Bytes := s.toList.map Char.toNat

/-- Group bytes into 32-bit little-endian words (ChaCha state loading). -/
def toWords32 : Bytes → List Nat
  | a :: b :: c :: d :: rest =>
      (a + 256 * b + 65536 * c + 16777216 * d) :: toWords32 rest
  | _ => []

/-- Byte-wise xor of two sequences (truncating to the shorter). -/
def xorBytes (a b : Bytes) : Bytes := List.zipWith (fun x y => x ^^^ y) a b

/-! ### ChaCha20 (RFC 8439), the stream cipher under chacha20poly1305 -/

/-- 32-bit left rotation. -/
def rotl32 (x n : Nat) : Nat := ((x <<< n) ||| (x >>> (32 - n))) % 2 ^ 32

/-- The four ChaCha constant words. -/
def chachaConsts : List Nat := [0x61707865, 0x3320646e, 0x79622d32, 0x6b206574]

/-- One ChaCha quarter round on four words. -/
def quarterRound (a b c d : Nat) : Nat × Nat × Nat × Nat :=
  let a := (a + b) % 2 ^ 32
  let d := rotl32 (d ^^^ a) 16
  let c := (c + d) % 2 ^ 32
  let b := rotl32 (b ^^^ c) 12
  let a := (a + b) % 2 ^ 32
  let d := rotl32 (d ^^^ a) 8
  let c := (c + d) % 2 ^ 32
  let b := rotl32 (b ^^^ c) 7
  (a, b, c, d)

/-- Apply a quarter round at four state indices. -/
def qr (s : List Nat) (ia ib ic id : Nat) : List Nat :=
  match quarterRound (s.getD ia 0) (s.getD ib 0) (s.getD ic 0) (s.getD id 0) with
  | (a, b, c, d) => (((s.set ia a).set ib b).set ic c).set id d

/-- One ChaCha double round (column round then diagonal round). -/
def doubleRound (s : List Nat) : List Nat :=
  let s := qr s 0 4 8 12
  let s := qr s 1 5 9 13
  let s := qr s 2 6 10 14
  let s := qr s 3 7 11 15
  let s := qr s 0 5 10 15
  let s := qr s 1 6 11 12
  let s := qr s 2 7 8 13
  qr s 3 4 9 14

/-- Initial 16-word ChaCha state: constants, 8 key words, counter, 3 nonce
words.  In this system the key always has 32 bytes and the nonce 12, making
the list exactly 16 words; takeD pins the state shape. -/
def chachaInit (key : Bytes) (counter : Nat) (nonce : Bytes) : List Nat :=
  (chachaConsts ++ toWords32 key ++ [counter % 2 ^ 32] ++ toWords32 nonce).takeD 16 0

/-- One 64-byte ChaCha20 block: 10 double rounds, add the initial state. -/
def chachaBlock (key : Bytes) (counter : Nat) (nonce : Bytes) : Bytes :=
  let init := chachaInit key counter nonce
  let working := doubleRound^[10] init
  ((working.zipWith (fun a b => (a + b) % 2 ^ 32) init).map u32le).flatten

/-- Keystream of a given length; block counter starts at 1 for encryption. -/
def chachaKeystream (key nonce : Bytes) (len : Nat) : Bytes :=
  (((List.range ((len + 63) / 64)).map
      (fun i => chachaBlock key (i + 1) nonce)).flatten).take len

/-! ### Poly1305 (RFC 8439) -/

/-- Clamp the r half of the Poly1305 key. -/
def polyClamp (r : Nat) : Nat := r &&& 0x0ffffffc0ffffffc0ffffffc0fffffff

/-- The Poly1305 prime. -/
def polyP : Nat := 2 ^ 130 - 5

/-- Split a message into Poly1305 block values: little-endian chunk value
plus a high bit at the chunk length. -/
def polyBlocks (msg : Bytes) : List Nat :=
  if h : msg = [] then []
  else
    (bytesToNatLE (msg.take 16) + 2 ^ (8 * (msg.take 16).length))
      :: polyBlocks (msg.drop 16)
termination_by msg.length
decreasing_by
  simp only [List.length_drop]
  have : 0 < msg.length := List.length_pos.mpr h
  omega

/-- Poly1305 MAC of a message under a 32-byte one-time key. -/
def poly1305 (key msg : Bytes) : Bytes :=
  let r := polyClamp (bytesToNatLE (key.take 16))
  let s := bytesToNatLE ((key.drop 16).take 16)
  let acc := (polyBlocks msg).foldl (fun acc blk => ((acc + blk) * r) % polyP) 0
  natToBytesLE 16 ((acc + s) % 2 ^ 128)

/-- Zero padding to the next 16-byte boundary. -/
def pad16 (b : Bytes) : Bytes := List.replicate ((16 - b.length % 16) % 16) 0

/-- The Poly1305 input of the chacha20poly1305 AEAD with empty associated
data (the code passes no associated data). -/
def aeadMacData (ct : Bytes) : Bytes :=
  ct ++ pad16 ct ++ u64le 0 ++ u64le ct.length

/-- AEAD tag: Poly1305 under the one-time key from block 0 of the keystream. -/
def aeadTag (key nonce ct : Bytes) : Bytes :=
  poly1305 ((chachaBlock key 0 nonce).take 32) (aeadMacData ct)

/-- chacha20poly1305 seal: ciphertext followed by the 16-byte tag
(the crate appends the tag to the ciphertext). -/
def chacha20poly1305Seal (key nonce plaintext : Bytes) : Bytes :=
  xorBytes plaintext (chachaKeystream key nonce plaintext.length)
    ++ aeadTag key nonce (xorBytes plaintext (chachaKeystream key nonce plaintext.length))

/-- chacha20poly1305 open: verify the trailing 16-byte tag, then unxor. -/
def chacha20poly1305Open (key nonce data : Bytes) : Option Bytes :=
  if data.length < 16 then none
  else if aeadTag key nonce (data.take (data.length - 16))
      = data.drop (data.length - 16) then
    some (xorBytes (data.take (data.length - 16))
      (chachaKeystream key nonce (data.take (data.length - 16)).length))
  else none

/-! ### The Ephemeral Key Cascade engine (src/src/crypto.rs)

The engine is parameterized by the HKDF-SHA256 function of the hkdf crate:
`hkdf salt ikm info len` stands for
`Hkdf::<Sha256>::new(salt, ikm).expand(info, out)` with `out.len() = len`
(which cannot fail for the 32-byte outputs requested here).  The claims
about the cascade concern which inputs, salts and labels feed each
derivation, so the hash itself stays an explicit parameter. -/

abbrev Hkdf := Option Bytes → Bytes → Bytes → Nat → Bytes

/-- Mirror of struct EphemeralKeys; Instant is modelled as a Nat clock. -/
structure EphemeralKeys where
  master_key : Bytes
  session_key : Bytes
  encryption_key : Bytes
  mac_key : Bytes
  created_at : Nat
  rotation_interval : Nat
deriving DecidableEq

/-- EphemeralKeys::derive_keys: expand the three subkeys from the current
master key with no salt, under the three domain-separation labels. -/
def derive_keys (hkdf : Hkdf) (k : EphemeralKeys) : EphemeralKeys :=
  { k with
    session_key := hkdf none k.master_key (strBytes "SILENCE_SESSION_KEY") 32
    encryption_key := hkdf none k.master_key (strBytes "SILENCE_ENCRYPT_KEY") 32
    mac_key := hkdf none k.master_key (strBytes "SILENCE_MAC_KEY") 32 }

/-- EphemeralKeys::should_rotate: created_at.elapsed() >= rotation_interval. -/
def should_rotate (k : EphemeralKeys) (now : Nat) : Bool :=
  k.rotation_interval ≤ now - k.created_at

/-- EphemeralKeys::rotate: overwrite the master key with the expansion of
the old master salted by the current session key, rederive the subkeys
from the new master, then reset the epoch. -/
def rotate (hkdf : Hkdf) (k : EphemeralKeys) (now : Nat) : EphemeralKeys :=
  let newMaster := hkdf (some k.session_key) k.master_key
      (strBytes "SILENCE_NEW_MASTER") 32
  let k2 := derive_keys hkdf { k with master_key := newMaster }
  { k2 with created_at := now }

/-- Mirror of struct SilenceCrypto. -/
structure SilenceCrypto where
  keys : EphemeralKeys
deriving DecidableEq

/-- Mirror of struct EncryptedMessage. -/
structure EncryptedMessage where
  nonce : Bytes
  ciphertext : Bytes
  timestamp : Nat
deriving DecidableEq

/-- SilenceCrypto::encrypt: rotate first when the epoch expired, then seal
under the current encryption key with the fresh random nonce (the nonce
and the wall clock are inputs of the model). -/
def encrypt (hkdf : Hkdf) (c : SilenceCrypto) (now : Nat) (nonce : Bytes)
    (plaintext : Bytes) : SilenceCrypto × EncryptedMessage :=
  let keys := if should_rotate c.keys now then rotate hkdf c.keys now else c.keys
  let ct := chacha20poly1305Seal keys.encryption_key nonce plaintext
  (⟨keys⟩, ⟨nonce, ct, now⟩)

/-- SilenceCrypto::decrypt: open under the current encryption key; the
&mut self receiver is mirrored by returning the (unchanged) state. -/
def decrypt (c : SilenceCrypto) (m : EncryptedMessage) :
    SilenceCrypto × Option Bytes :=
  (c, chacha20poly1305Open c.keys.encryption_key m.nonce m.ciphertext)

/-- SilenceCrypto::rotate_keys: force a rotation. -/
def rotate_keys (hkdf : Hkdf) (c : SilenceCrypto) (now : Nat) : SilenceCrypto :=
  ⟨rotate hkdf c.keys now⟩

/-! ### The peer networking layer (src/src/network.rs) -/

/-- Kinds of std::io::Error relevant to this system. -/
inductive IoErrorKind
  | connectionRefused
  | unexpectedEof
  | other (code : Nat)
deriving DecidableEq

/-- A std::io::Error: a kind plus its message. -/
structure IoError where
  kind : IoErrorKind
  msg : String
deriving DecidableEq

/-- Mirror of enum NetworkError (payloads of Serialization and Crypto
errors are not tracked). -/
inductive NetworkError
  | connection (e : IoError)
  | serialization
  | crypto
  | invalidMessage
  | messageTooLarge
  | timeout
deriving DecidableEq

/-- Mirror of enum MessageType. -/
inductive MessageType
  | Text
  | KeyRotation
  | Heartbeat
deriving DecidableEq

/-- bincode 1.x encodes an enum variant as its u32 index. -/
def messageTypeTag : MessageType → Nat
  | .Text => 0
  | .KeyRotation => 1
  | .Heartbeat => 2

/-- Mirror of struct NetworkMessage. -/
structure NetworkMessage where
  id : String
  message_type : MessageType
  encrypted_data : EncryptedMessage
deriving DecidableEq

/-- bincode::serialize of EncryptedMessage with the crate's default
(fixint, little-endian) configuration: a [u8;12] array is written raw, a
Vec gets a u64 length, u64 is 8 bytes. -/
def serialize_encrypted (m : EncryptedMessage) : Bytes :=
  m.nonce ++ u64le m.ciphertext.length ++ m.ciphertext ++ u64le m.timestamp

/-- bincode::serialize of NetworkMessage: length-prefixed id string (the
ids are ASCII uuids, so byte length equals char count), u32 variant tag,
then the EncryptedMessage fields. -/
def serialize_network_message (m : NetworkMessage) : Bytes :=
  u64le (strBytes m.id).length ++ strBytes m.id
    ++ u32le (messageTypeTag m.message_type) ++ serialize_encrypted m.encrypted_data

/-- Split off the first n bytes, failing when fewer are available. -/
def splitAt? (n : Nat) (b : Bytes) : Option (Bytes × Bytes) :=
  if n ≤ b.length then some (b.take n, b.drop n) else none

/-- Read a little-endian u64 (bincode fixint). -/
def readU64le (b : Bytes) : Option (Nat × Bytes) :=
  match splitAt? 8 b with
  | some (w, rest) => some (bytesToNatLE w, rest)
  | none => none

/-- Read a little-endian u32 (bincode fixint enum tag). -/
def readU32le (b : Bytes) : Option (Nat × Bytes) :=
  match splitAt? 4 b with
  | some (w, rest) => some (bytesToNatLE w, rest)
  | none => none

/-- tokio read_u32: big-endian, UnexpectedEof when fewer than 4 bytes. -/
def readU32beStream : Bytes → Option (Nat × Bytes)
  | a :: b :: c :: d :: rest => some (((a * 256 + b) * 256 + c) * 256 + d, rest)
  | _ => none

/-- bincode::deserialize of EncryptedMessage (trailing bytes returned). -/
def deserialize_encrypted (b : Bytes) : Option (EncryptedMessage × Bytes) :=
  match splitAt? 12 b with
  | none => none
  | some (nonce, r1) =>
    match readU64le r1 with
    | none => none
    | some (clen, r2) =>
      match splitAt? clen r2 with
      | none => none
      | some (ct, r3) =>
        match readU64le r3 with
        | none => none
        | some (ts, r4) => some (⟨nonce, ct, ts⟩, r4)

/-- Recover a string from ASCII bytes (uuid ids are ASCII). -/
def bytesToStr (b : Bytes) : String := String.mk (b.map Char.ofNat)

/-- bincode::deserialize of NetworkMessage. -/
def deserialize_network_message (b : Bytes) : Option (NetworkMessage × Bytes) :=
  match readU64le b with
  | none => none
  | some (idlen, r1) =>
    match splitAt? idlen r1 with
    | none => none
    | some (idb, r2) =>
      match readU32le r2 with
      | none => none
      | some (tag, r3) =>
        match (match tag with
               | 0 => some MessageType.Text
               | 1 => some MessageType.KeyRotation
               | 2 => some MessageType.Heartbeat
               | _ => none) with
        | none => none
        | some mt =>
          match deserialize_encrypted r3 with
          | none => none
          | some (em, r4) => some (⟨bytesToStr idb, mt, em⟩, r4)

/-- Validity of a byte sequence as UTF-8 (String::from_utf8). -/
def utf8Valid : Bytes → Bool
  | [] => true
  | b :: rest =>
    if b < 0x80 then utf8Valid rest
    else if b < 0xC2 then false
    else if b < 0xE0 then
      match rest with
      | c1 :: r =>
        if 0x80 ≤ c1 ∧ c1 < 0xC0 then utf8Valid r else false
      | [] => false
    else if b < 0xF0 then
      match rest with
      | c1 :: c2 :: r =>
        if (if b = 0xE0 then 0xA0 else 0x80) ≤ c1
            ∧ c1 < (if b = 0xED then 0xA0 else 0xC0)
            ∧ 0x80 ≤ c2 ∧ c2 < 0xC0 then utf8Valid r else false
      | _ => false
    else if b < 0xF5 then
      match rest with
      | c1 :: c2 :: c3 :: r =>
        if (if b = 0xF0 then 0x90 else 0x80) ≤ c1
            ∧ c1 < (if b = 0xF4 then 0x90 else 0xC0)
            ∧ 0x80 ≤ c2 ∧ c2 < 0xC0 ∧ 0x80 ≤ c3 ∧ c3 < 0xC0 then utf8Valid r
        else false
      | _ => false
    else false

/-- P2PConnection::send_message, modelled on the bytes written to the
stream: the first component is the stream after the call, the second the
error if any.  The size check precedes every write. -/
def send_message (is_relay : Bool) (max_message_size : Nat) (m : NetworkMessage)
    (stream : Bytes) : Bytes × Option NetworkError :=
  if is_relay then
    if (serialize_encrypted m.encrypted_data).length > max_message_size then
      (stream, some .messageTooLarge)
    else
      (stream ++ u32be (serialize_encrypted m.encrypted_data).length
        ++ serialize_encrypted m.encrypted_data, none)
  else
    if (serialize_network_message m).length > max_message_size then
      (stream, some .messageTooLarge)
    else
      (stream ++ u32be (serialize_network_message m).length
        ++ serialize_network_message m, none)

/-- P2PConnection::receive_message over an inbound byte stream.  Returns
the engine (KeyRotation frames rotate it) and the decrypted text bytes
(after the UTF-8 check) or none for the graceful-close and internal
message cases. -/
def receive_message (hkdf : Hkdf) (c : SilenceCrypto) (now : Nat)
    (is_relay : Bool) (max_message_size : Nat) (stream : Bytes) :
    Except NetworkError (SilenceCrypto × Option Bytes) :=
  match readU32beStream stream with
  | none => .ok (c, none)
  | some (length, rest) =>
    if length > max_message_size then .error .messageTooLarge
    else if rest.length < length then
      .error (.connection ⟨.unexpectedEof, "failed to fill whole buffer"⟩)
    else
      if is_relay then
        match deserialize_encrypted (rest.take length) with
        | none => .error .serialization
        | some (em, _) =>
          match (decrypt c em).2 with
          | none => .error .crypto
          | some pt => if utf8Valid pt then .ok (c, some pt) else .error .invalidMessage
      else
        match deserialize_network_message (rest.take length) with
        | none => .error .serialization
        | some (nm, _) =>
          match nm.message_type with
          | .Text =>
            match (decrypt c nm.encrypted_data).2 with
            | none => .error .crypto
            | some pt =>
              if utf8Valid pt then .ok (c, some pt) else .error .invalidMessage
          | .KeyRotation => .ok (rotate_keys hkdf c now, none)
          | .Heartbeat => .ok (c, none)

/-- Mirror of enum ConnectionMode. -/
inductive ConnectionMode
  | auto
  | directOnly
  | relayOnly
deriving DecidableEq

/-- ConnectionManager::connect_via_relay, parameterized by address parsing
and by the dial function (P2PConnection::connect; the Bool is is_relay):
endpoints that do not parse are skipped, the first successful Relay-mode
dial wins, and exhaustion yields a ConnectionRefused Connection error. -/
def connect_via_relay {Addr Conn : Type} (parseAddr : String → Option Addr)
    (dial : Addr → Bool → Except NetworkError Conn) :
    List String → Except NetworkError Conn
  | [] => .error (.connection ⟨.connectionRefused, "All relay servers failed"⟩)
  | r :: rest =>
    match parseAddr r with
    | none => connect_via_relay parseAddr dial rest
    | some a =>
      match dial a true with
      | .ok conn => .ok conn
      | .error _ => connect_via_relay parseAddr dial rest

/-- ConnectionManager::connect_with_mode. -/
def connect_with_mode {Addr Conn : Type} (parseAddr : String → Option Addr)
    (dial : Addr → Bool → Except NetworkError Conn) (relay_servers : List String)
    (addr : Addr) (mode : ConnectionMode) : Except NetworkError Conn :=
  match mode with
  | .auto =>
    match dial addr false with
    | .ok conn => .ok conn
    | .error direct_err =>
      match connect_via_relay parseAddr dial relay_servers with
      | .ok conn => .ok conn
      | .error _ => .error direct_err
  | .directOnly => dial addr false
  | .relayOnly => connect_via_relay parseAddr dial relay_servers

/-! ### The relay server (src/relay-server/src/main.rs) -/

namespace Relay

/-- Errors of ClientHandler::read_message (boxed strings in the source:
the message-too-large and invalid-zero-length texts, or an I/O error). -/
inductive ReadError
  | tooLarge
  | zeroLength
  | ioError
deriving DecidableEq

/-- ClientHandler::read_message: 4-byte big-endian length, then the
too-large check, then the zero-length check, then the exact read. -/
def read_message (max_message_size : Nat) (stream : Bytes) :
    Except ReadError (Option Bytes) :=
  match readU32beStream stream with
  | none => .ok none
  | some (length, rest) =>
    if length > max_message_size then .error .tooLarge
    else if length = 0 then .error .zeroLength
    else if rest.length < length then .error .ioError
    else .ok (some (rest.take length))

/-- A tokio broadcast channel of capacity 64 with its single receiver (the
client's writer task): the unread queue, whether the receiver still
exists, and whether it has been lapped (next recv returns Lagged). -/
structure BroadcastChannel where
  queue : List Bytes
  receiver_alive : Bool
  lagged : Bool
deriving DecidableEq

/-- The per-client queue capacity (broadcast::channel(64)). -/
def channelCapacity : Nat := 64

/-- broadcast::Sender::send: fails only when no receiver exists; when the
ring buffer is full the oldest value is overwritten (the receiver becomes
lagged) and the send still succeeds. -/
def bsend (ch : BroadcastChannel) (data : Bytes) : BroadcastChannel × Bool :=
  if ch.receiver_alive = false then (ch, false)
  else if ch.queue.length = channelCapacity then
    ({ ch with queue := ch.queue.drop 1 ++ [data], lagged := true }, true)
  else ({ ch with queue := ch.queue ++ [data] }, true)

/-- Outcome of broadcast::Receiver::recv. -/
inductive RecvResult
  | msg (data : Bytes)
  | laggedErr
  | pending
deriving DecidableEq

/-- broadcast::Receiver::recv: a lagged receiver gets Err(Lagged) once,
otherwise the oldest queued value; an empty queue suspends. -/
def brecv (ch : BroadcastChannel) : BroadcastChannel × RecvResult :=
  if ch.lagged then ({ ch with lagged := false }, .laggedErr)
  else
    match ch.queue with
    | [] => (ch, .pending)
    | d :: rest => ({ ch with queue := rest }, .msg d)

/-- The writer task loop guard: while let Ok(data) = rx.recv() with the
empty-payload shutdown sentinel — any recv error (Lagged included) or an
empty payload ends the loop. -/
def writer_continues : RecvResult → Bool
  | .msg data => decide (data ≠ [])
  | .laggedErr => false
  | .pending => true

/-- ClientHandler::broadcast_message: iterate over the registered clients,
skip the sender by client_id equality, non-blocking send to every other
client, collecting ids whose channel send failed. -/
def broadcast_message (sender_id : Nat) (data : Bytes) :
    List (Nat × BroadcastChannel) → List (Nat × BroadcastChannel) × List Nat
  | [] => ([], [])
  | (cid, ch) :: rest =>
    let r := broadcast_message sender_id data rest
    if cid = sender_id then ((cid, ch) :: r.1, r.2)
    else
      ((cid, (bsend ch data).1) :: r.1,
        if (bsend ch data).2 then r.2 else cid :: r.2)

/-- Admission state of RelayServer: the client map plus the clients whose
accept passed the capacity check but whose handler task has not yet
inserted them (the check in run() and the insert in handle_client take the
lock separately). -/
structure ServerState where
  registered : List Nat
  admitted : List Nat
deriving DecidableEq

/-- The admission-relevant events of the relay. -/
inductive Event
  | accept (id : Nat)
  | register (id : Nat)
  | disconnect (id : Nat)

/-- One interleaving step of RelayServer::run and ClientHandler:
accept checks the current map size only; register inserts
unconditionally; disconnect removes on teardown. -/
def relay_step (max_clients : Nat) (s : ServerState) : Event → ServerState
  | .accept id =>
    if max_clients ≤ s.registered.length then s
    else { s with admitted := id :: s.admitted }
  | .register id =>
    if id ∈ s.admitted then
      ⟨id :: s.registered, s.admitted.erase id⟩
    else s
  | .disconnect id => { s with registered := s.registered.erase id }

/-- Run the relay admission machine from the empty state. -/
def relay_run (max_clients : Nat) (events : List Event) : ServerState :=
  events.foldl (relay_step max_clients) ⟨[], []⟩

end Relay

/-! ### Concrete sample values used by witnesses -/

/-- A concrete stand-in for the HKDF parameter. -/
def hkdfConst : Hkdf := fun _ _ _ n => List.replicate n 0

def sampleKeys : EphemeralKeys :=
  ⟨List.replicate 32 0, List.replicate 32 1, List.replicate 32 2,
    List.replicate 32 3, 0, 15⟩

def sampleEngine : SilenceCrypto := ⟨sampleKeys⟩

def sampleNonce : Bytes := List.replicate 12 7

def sampleEnc : EncryptedMessage := ⟨sampleNonce, [1, 2, 3], 0⟩

def sampleNM : NetworkMessage := ⟨"id", .Text, sampleEnc⟩

def fullChannel : Relay.BroadcastChannel := ⟨List.replicate 64 [0], true, false⟩

def closedChannel : Relay.BroadcastChannel := ⟨[], false, false⟩

/-! ### Length lemmas for the AEAD round trip -/

theorem qr_length (s : List Nat) (ia ib ic id : Nat) :
    (qr s ia ib ic id).length = s.length := by
  unfold qr
  rcases quarterRound (s.getD ia 0) (s.getD ib 0) (s.getD ic 0) (s.getD id 0)
    with ⟨a, b, c, d⟩
  simp

theorem doubleRound_length (s : List Nat) :
    (doubleRound s).length = s.length := by
  unfold doubleRound
  simp [qr_length]

theorem doubleRound_iterate_length (n : Nat) (s : List Nat) :
    (doubleRound^[n] s).length = s.length := by
  induction n generalizing s with
  | zero => rfl
  | succ n ih => rw [Function.iterate_succ_apply, ih, doubleRound_length]

theorem chachaInit_length (key : Bytes) (counter : Nat) (nonce : Bytes) :
    (chachaInit key counter nonce).length = 16 :=
  List.takeD_length 16 _ 0

theorem flatten_map_length_const {α : Type} (f : α → Bytes) (c : Nat) :
    ∀ l : List α, (∀ b ∈ l, (f b).length = c) →
      ((l.map f).flatten).length = c * l.length
  | [], _ => by simp
  | x :: xs, h => by
    rw [List.map_cons, List.flatten_cons, List.length_append,
      h x (by simp), flatten_map_length_const f c xs (fun b hb => h b (by simp [hb])),
      List.length_cons, Nat.mul_succ, Nat.add_comm]

theorem chachaBlock_length (key : Bytes) (counter : Nat) (nonce : Bytes) :
    (chachaBlock key counter nonce).length = 64 := by
  unfold chachaBlock
  rw [flatten_map_length_const u32le 4 _ (fun b _ => rfl)]
  rw [List.length_zipWith, doubleRound_iterate_length, chachaInit_length]
  rfl

theorem chachaKeystream_length (key nonce : Bytes) (len : Nat) :
    (chachaKeystream key nonce len).length = len := by
  unfold chachaKeystream
  rw [List.length_take]
  rw [flatten_map_length_const (fun i => chachaBlock key (i + 1) nonce) 64 _
    (fun b _ => chachaBlock_length key (b + 1) nonce)]
  rw [List.length_range]
  have := Nat.div_add_mod (len + 63) 64
  omega

theorem natToBytesLE_length (len n : Nat) :
    (natToBytesLE len n).length = len := by
  simp [natToBytesLE]

theorem poly1305_length (key msg : Bytes) : (poly1305 key msg).length = 16 :=
  natToBytesLE_length 16 _

theorem xorBytes_length (a b : Bytes) :
    (xorBytes a b).length = min a.length b.length :=
  List.length_zipWith _ a b

theorem xorBytes_cancel (p ks : Bytes) (h : ks.length = p.length) :
    xorBytes (xorBytes p ks) ks = p := by
  induction p generalizing ks with
  | nil => simp [xorBytes]
  | cons x xs ih =>
    cases ks with
    | nil => simp at h
    | cons k kt =>
      simp only [xorBytes, List.zipWith_cons_cons]
      rw [Nat.xor_cancel_right]
      have h' : kt.length = xs.length := by simpa using h
      have := ih kt h'
      simp only [xorBytes] at this
      rw [this]

/-- The AEAD round trip at the primitive level: opening a sealed message
under the same key and nonce succeeds and returns the plaintext. -/
theorem seal_open (key nonce p : Bytes) :
    chacha20poly1305Open key nonce (chacha20poly1305Seal key nonce p) = some p := by
  unfold chacha20poly1305Seal chacha20poly1305Open
  have hks : (chachaKeystream key nonce p.length).length = p.length :=
    chachaKeystream_length key nonce p.length
  set ct := xorBytes p (chachaKeystream key nonce p.length) with hct
  have hlct : ct.length = p.length := by
    rw [hct, xorBytes_length, hks, Nat.min_self]
  have htag : (aeadTag key nonce ct).length = 16 := poly1305_length _ _
  have hlen : (ct ++ aeadTag key nonce ct).length = ct.length + 16 := by
    rw [List.length_append, htag]
  rw [hlen]
  have hnot : ¬ (ct.length + 16 < 16) := by omega
  rw [if_neg hnot]
  have hn : ct.length + 16 - 16 = ct.length := by omega
  rw [hn, List.take_left, List.drop_left, if_pos rfl, hlct, hct,
    xorBytes_cancel p _ hks]

/-! ### Claim theorems -/

/-- C3: a successful rotate() replaces the master secret with the 32-byte
HKDF expansion of the old master key using the current session_key as
salt and the ASCII label SILENCE_NEW_MASTER, then rederives session_key,
encryption_key and mac_key from the new master with the labels
SILENCE_SESSION_KEY, SILENCE_ENCRYPT_KEY and SILENCE_MAC_KEY, and resets
the epoch timestamp to now. -/
theorem c3_rotate_cascade (hkdf : Hkdf) (k : EphemeralKeys) (now : Nat) :
    (rotate hkdf k now).master_key
        = hkdf (some k.session_key) k.master_key (strBytes "SILENCE_NEW_MASTER") 32
    ∧ (rotate hkdf k now).session_key
        = hkdf none (rotate hkdf k now).master_key (strBytes "SILENCE_SESSION_KEY") 32
    ∧ (rotate hkdf k now).encryption_key
        = hkdf none (rotate hkdf k now).master_key (strBytes "SILENCE_ENCRYPT_KEY") 32
    ∧ (rotate hkdf k now).mac_key
        = hkdf none (rotate hkdf k now).master_key (strBytes "SILENCE_MAC_KEY") 32
    ∧ (rotate hkdf k now).created_at = now
    ∧ (rotate hkdf k now).rotation_interval = k.rotation_interval
    ∧ strBytes "SILENCE_NEW_MASTER"
        = [83, 73, 76, 69, 78, 67, 69, 95, 78, 69, 87, 95, 77, 65, 83, 84, 69, 82]
    ∧ strBytes "SILENCE_SESSION_KEY"
        = [83, 73, 76, 69, 78, 67, 69, 95, 83, 69, 83, 83, 73, 79, 78, 95, 75, 69, 89]
    ∧ strBytes "SILENCE_ENCRYPT_KEY"
        = [83, 73, 76, 69, 78, 67, 69, 95, 69, 78, 67, 82, 89, 80, 84, 95, 75, 69, 89]
    ∧ strBytes "SILENCE_MAC_KEY"
        = [83, 73, 76, 69, 78, 67, 69, 95, 77, 65, 67, 95, 75, 69, 89] :=
  ⟨rfl, rfl, rfl, rfl, rfl, rfl, by decide, by decide, by decide, by decide⟩

/-- C4: for every plaintext of size at most max_message_size, if encrypt
succeeds then decrypting the produced frame with the engine in its
post-encrypt state (same derived keys, no rotation in between — decrypt
never rotates) succeeds and returns exactly the plaintext. -/
theorem c4_round_trip (hkdf : Hkdf) (c : SilenceCrypto) (now : Nat)
    (nonce p : Bytes) (max_message_size : Nat)
    (hsize : p.length ≤ max_message_size) :
    (decrypt (encrypt hkdf c now nonce p).1 (encrypt hkdf c now nonce p).2).2
      = some p := by
  cases hrot : should_rotate c.keys now <;>
    simp [encrypt, decrypt, hrot, seal_open]

theorem c4_round_trip_witness :
    ([104, 105] : Bytes).length ≤ 4096
    ∧ (decrypt (encrypt hkdfConst sampleEngine 5 sampleNonce [104, 105]).1
        (encrypt hkdfConst sampleEngine 5 sampleNonce [104, 105]).2).2
      = some [104, 105] :=
  ⟨by decide,
   c4_round_trip hkdfConst sampleEngine 5 sampleNonce [104, 105] 4096 (by decide)⟩

/-- C9: decrypt never mutates the engine: the state after decrypt equals
the state before, whether opening succeeds or fails; by contrast encrypt
rotates first whenever the epoch has expired. -/
theorem c9_decrypt_stateless (c : SilenceCrypto) (m : EncryptedMessage) :
    (decrypt c m).1 = c
    ∧ ∀ (hkdf : Hkdf) (now : Nat) (nonce p : Bytes),
        should_rotate c.keys now = true →
          (encrypt hkdf c now nonce p).1 = ⟨rotate hkdf c.keys now⟩ := by
  refine ⟨rfl, ?_⟩
  intro hkdf now nonce p h
  simp [encrypt, h]

theorem c9_decrypt_stateless_witness :
    (decrypt sampleEngine sampleEnc).1 = sampleEngine
    ∧ (encrypt hkdfConst sampleEngine 20 sampleNonce []).1
      = ⟨rotate hkdfConst sampleEngine.keys 20⟩ :=
  ⟨(c9_decrypt_stateless sampleEngine sampleEnc).1,
   (c9_decrypt_stateless sampleEngine sampleEnc).2 hkdfConst 20 sampleNonce []
     (by decide)⟩

/-- C5: on the peer send path, a message whose serialized payload exceeds
max_message_size (relay mode checks the bare EncryptedMessage bytes,
direct mode the full NetworkMessage bytes) returns MessageTooLarge and
writes no bytes at all to the stream. -/
theorem c5_oversize_send (stream : Bytes) (max_message_size : Nat)
    (m : NetworkMessage) :
    ((serialize_encrypted m.encrypted_data).length > max_message_size →
      send_message true max_message_size m stream
        = (stream, some .messageTooLarge))
    ∧ ((serialize_network_message m).length > max_message_size →
      send_message false max_message_size m stream
        = (stream, some .messageTooLarge)) := by
  constructor <;> intro h <;> simp [send_message, h]

theorem c5_oversize_send_witness :
    (serialize_encrypted sampleNM.encrypted_data).length > 4
    ∧ (serialize_network_message sampleNM).length > 4
    ∧ send_message true 4 sampleNM [] = ([], some .messageTooLarge)
    ∧ send_message false 4 sampleNM [] = ([], some .messageTooLarge) :=
  ⟨by decide, by decide,
   (c5_oversize_send [] 4 sampleNM).1 (by decide),
   (c5_oversize_send [] 4 sampleNM).2 (by decide)⟩

/-- C2 counterexample: the peer-side reader, on a frame with zero length
prefix, does NOT fail with InvalidMessage — there is no zero-length check
in P2PConnection::receive_message and the empty payload fails bincode
deserialization, a Serialization error. -/
theorem c2_counterexample :
    receive_message hkdfConst sampleEngine 0 true 65536 [0, 0, 0, 0]
        ≠ .error NetworkError.invalidMessage
    ∧ receive_message hkdfConst sampleEngine 0 true 65536 [0, 0, 0, 0]
        = .error NetworkError.serialization := by
  have he : receive_message hkdfConst sampleEngine 0 true 65536 [0, 0, 0, 0]
      = .error NetworkError.serialization := rfl
  refine ⟨?_, he⟩
  rw [he]
  intro h
  exact absurd (Except.error.inj h) (by decide)

/-- C2 (amended): a zero length prefix makes the relay-side reader fail
with the invalid-zero-length error (the too-large check coming first),
while the peer-side reader, which has no zero-length check, fails with a
Serialization error when deserializing the empty payload — in both relay
and direct mode, for any max_message_size and any trailing bytes. -/
theorem c2_zero_length_frames (max_message_size : Nat) (rest : Bytes)
    (hkdf : Hkdf) (c : SilenceCrypto) (now : Nat) (is_relay : Bool) :
    Relay.read_message max_message_size ([0, 0, 0, 0] ++ rest)
        = .error .zeroLength
    ∧ receive_message hkdf c now is_relay max_message_size ([0, 0, 0, 0] ++ rest)
        = .error .serialization := by
  constructor
  · simp [Relay.read_message, readU32beStream]
  · cases is_relay <;>
      simp [receive_message, readU32beStream, deserialize_encrypted,
        deserialize_network_message, readU64le, splitAt?]

/-- C6: Auto mode first attempts one direct dial; on failure it attempts
the relay path, and if the relay path also fails the caller receives
exactly the original direct-dial error, not the relay error. -/
theorem c6_auto_error_preference {Addr Conn : Type}
    (parseAddr : String → Option Addr)
    (dial : Addr → Bool → Except NetworkError Conn)
    (relay_servers : List String) (addr : Addr) (e : NetworkError)
    (hdirect : dial addr false = .error e) :
    (∀ e2, connect_via_relay parseAddr dial relay_servers = .error e2 →
        connect_with_mode parseAddr dial relay_servers addr .auto = .error e)
    ∧ (∀ conn, connect_via_relay parseAddr dial relay_servers = .ok conn →
        connect_with_mode parseAddr dial relay_servers addr .auto = .ok conn) := by
  constructor
  · intro e2 h2
    simp [connect_with_mode, hdirect, h2]
  · intro conn h2
    simp [connect_with_mode, hdirect, h2]

theorem c6_auto_error_preference_witness :
    connect_with_mode (fun _ => (none : Option Nat))
        (fun _ _ => (.error .timeout : Except NetworkError Nat)) [] 0 .auto
      = .error .timeout :=
  (c6_auto_error_preference (fun _ => (none : Option Nat))
      (fun _ _ => (.error .timeout : Except NetworkError Nat)) [] 0 .timeout rfl).1
    (.connection ⟨.connectionRefused, "All relay servers failed"⟩) rfl

/-- C10: connect_via_relay silently skips every endpoint string that does
not parse as a socket address; if every endpoint is unparseable or fails
to connect — including the empty endpoint list — it returns a Connection
error of kind ConnectionRefused. -/
theorem c10_relay_skip_unparseable {Addr Conn : Type}
    (parseAddr : String → Option Addr)
    (dial : Addr → Bool → Except NetworkError Conn) :
    (∀ (r : String) (rest : List String), parseAddr r = none →
        connect_via_relay parseAddr dial (r :: rest)
          = connect_via_relay parseAddr dial rest)
    ∧ ∀ relay_servers : List String,
        (∀ r ∈ relay_servers, ∀ a, parseAddr r = some a →
            ∀ conn, dial a true ≠ .ok conn) →
        connect_via_relay parseAddr dial relay_servers
          = .error (.connection ⟨.connectionRefused, "All relay servers failed"⟩) := by
  constructor
  · intro r rest h
    simp [connect_via_relay, h]
  · intro relay_servers
    induction relay_servers with
    | nil => intro _; rfl
    | cons r rest ih =>
      intro h
      rw [connect_via_relay]
      cases hp : parseAddr r with
      | none =>
        dsimp only
        exact ih (fun r2 hr2 => h r2 (List.mem_cons_of_mem r hr2))
      | some a =>
        dsimp only
        cases hd : dial a true with
        | ok conn => exact absurd hd (h r (List.mem_cons_self r rest) a hp conn)
        | error e2 =>
          dsimp only
          exact ih (fun r2 hr2 => h r2 (List.mem_cons_of_mem r hr2))

theorem c10_relay_skip_unparseable_witness :
    connect_via_relay (fun _ => (none : Option Nat))
        (fun _ _ => (.error .timeout : Except NetworkError Nat)) ["bad"]
      = connect_via_relay (fun _ => (none : Option Nat))
        (fun _ _ => (.error .timeout : Except NetworkError Nat)) []
    ∧ connect_via_relay (fun _ => (none : Option Nat))
        (fun _ _ => (.error .timeout : Except NetworkError Nat)) ["bad"]
      = .error (.connection ⟨.connectionRefused, "All relay servers failed"⟩) :=
  ⟨(c10_relay_skip_unparseable (fun _ => (none : Option Nat))
      (fun _ _ => (.error .timeout : Except NetworkError Nat))).1 "bad" [] rfl,
   (c10_relay_skip_unparseable (fun _ => (none : Option Nat))
      (fun _ _ => (.error .timeout : Except NetworkError Nat))).2 ["bad"]
     (fun _ _ a hpa _ => absurd hpa (by simp))⟩

/-- C1: the admission bound is violated by the code: the capacity check in
RelayServer::run and the map insert in ClientHandler::handle_client take
the lock separately, so with max_clients = 1 the interleaving
accept 1 · accept 2 · register 1 · register 2 — both accepts passing the
check before either handler registers — leaves two registered records. -/
theorem c1_admission_bound_violated :
    1 < (Relay.relay_run 1
      [.accept 1, .accept 2, .register 1, .register 2]).registered.length := by
  decide

/-- C7: the relay never enqueues a broadcast frame into the sender's own
outbound channel: the fan-out maps every registered client either to
itself (when its client_id equals the sender's) or to the result of the
non-blocking send — the sender's channel is left untouched. -/
theorem c7_sender_exclusion (sender_id : Nat) (data : Bytes) :
    ∀ clients : List (Nat × Relay.BroadcastChannel),
      (Relay.broadcast_message sender_id data clients).1
        = clients.map (fun p =>
            if p.1 = sender_id then p else (p.1, (Relay.bsend p.2 data).1))
  | [] => rfl
  | (cid, ch) :: rest => by
    simp only [Relay.broadcast_message, c7_sender_exclusion sender_id data rest,
      List.map_cons]
    by_cases h : cid = sender_id <;> simp [h]

/-- C8 counterexample: a full target queue does not drop the broadcast
frame for that target — the non-blocking send succeeds, the NEW frame is
enqueued while the OLDEST queued frame is overwritten, and the target's
writer does not continue: its next recv observes Lagged and its while-let
loop terminates. -/
theorem c8_counterexample :
    (Relay.bsend fullChannel [1]).2 = true
    ∧ (Relay.bsend fullChannel [1]).1.queue ≠ fullChannel.queue
    ∧ (Relay.bsend fullChannel [1]).1.queue.getLast? = some [1]
    ∧ Relay.writer_continues (Relay.brecv (Relay.bsend fullChannel [1]).1).2
        = false := by
  refine ⟨rfl, ?_, rfl, rfl⟩
  decide

/-- C8 (amended): a target whose channel is closed (its writer has exited
and dropped the receiver) fails the send and its id is collected in the
failed list (actual removal is performed by the target's own connection
task); a target whose queue is full still has the new frame enqueued
while its oldest queued frame is overwritten and it becomes lagged; a
lagged target's writer terminates at its next receive instead of
continuing to deliver subsequent frames. -/
theorem c8_failure_handling :
    (∀ (clients : List (Nat × Relay.BroadcastChannel)) (sender_id cid : Nat)
        (ch : Relay.BroadcastChannel) (data : Bytes),
        (cid, ch) ∈ clients → cid ≠ sender_id → ch.receiver_alive = false →
          cid ∈ (Relay.broadcast_message sender_id data clients).2)
    ∧ (∀ (ch : Relay.BroadcastChannel) (data : Bytes),
        ch.receiver_alive = true → ch.queue.length = Relay.channelCapacity →
          Relay.bsend ch data
            = ({ ch with queue := ch.queue.drop 1 ++ [data], lagged := true },
                true))
    ∧ ∀ ch : Relay.BroadcastChannel, ch.lagged = true →
        Relay.writer_continues (Relay.brecv ch).2 = false := by
  refine ⟨?_, ?_, ?_⟩
  · intro clients sender_id cid ch data hmem hne hdead
    induction clients with
    | nil => simp at hmem
    | cons p rest ih =>
      rcases p with ⟨cid2, ch2⟩
      rcases List.mem_cons.mp hmem with heq | hmem2
      · rcases Prod.mk.injEq .. ▸ heq with ⟨h1, h2⟩
        subst h1; subst h2
        simp only [Relay.broadcast_message]
        rw [if_neg hne]
        have : (Relay.bsend ch data).2 = false := by
          simp [Relay.bsend, hdead]
        simp [this]
      · have hrest := ih hmem2
        simp only [Relay.broadcast_message]
        by_cases h2 : cid2 = sender_id
        · simpa [h2] using hrest
        · by_cases hs : (Relay.bsend ch2 data).2 <;>
            simp [h2, hs, hrest, List.mem_cons]
  · intro ch data halive hfull
    simp [Relay.bsend, halive, hfull]
  · intro ch hlag
    simp [Relay.brecv, hlag, Relay.writer_continues]

theorem c8_failure_handling_witness :
    (5 : Nat) ∈ (Relay.broadcast_message 9 [1] [(5, closedChannel)]).2
    ∧ Relay.bsend fullChannel [2]
      = ({ fullChannel with
            queue := fullChannel.queue.drop 1 ++ [[2]],
            lagged := true }, true)
    ∧ Relay.writer_continues (Relay.brecv ⟨[], true, true⟩).2 = false :=
  ⟨c8_failure_handling.1 [(5, closedChannel)] 9 5 closedChannel [1]
      (by simp) (by decide) rfl,
   c8_failure_handling.2.1 fullChannel [2] rfl (by decide),
   c8_failure_handling.2.2 ⟨[], true, true⟩ rfl⟩

end Silence
